import Mathlib

/-!
Verification development for the `kgraphmemory` dual-store knowledge graph
(`kgraphmemory/kgraph.py`, `kgraph_rdf_db.py`, `kgraph_vector_db.py`,
`default_vector_mappings.py`).

The Python code is shallowly embedded: stores become explicit values
(`List Quad` for the pyoxigraph store, an association list keyed by record id
for the qdrant collection, an association list for the in-process registry),
stateful methods become state-passing functions, and the two failure channels
visible at the `KGraph` layer (the boolean returned by
`add_graph_object_triples`, and exceptions escaping
`KGraphVectorDB.add_text`) become explicit parameters.  Embedding vectors are
not represented: the embedding model is deterministic, so a stored record is
represented by the text it embeds together with its payload.
-/

/-- Does the second character list occur at the head of the first?
(Structural-recursion replacement for `String.startsWith`, so that concrete
instances reduce under `decide`.) -/
def charListStartsWith : List Char → List Char → Bool
  | _, [] => true
  | [], _ :: _ => false
  | c :: cs, d :: ds => c = d && charListStartsWith cs ds

/-- Does the second character list occur anywhere inside the first? -/
def charListContainsSub : List Char → List Char → Bool
  | [], pat => pat.isEmpty
  | c :: rest, pat => charListStartsWith (c :: rest) pat || charListContainsSub rest pat

/-- The Python test `s.startswith(pat)`. -/
def strStartsWith (s pat : String) : Bool :=
  charListStartsWith s.data pat.data

/-- The Python operator `pat in s`. -/
def strContains (s pat : String) : Bool :=
  charListContainsSub s.data pat.data

/-- The Python method `s.lower()` (ASCII case folding suffices for the
class names and lexical values the code lowers). -/
def strToLower (s : String) : String :=
  String.mk (s.data.map Char.toLower)

/-- Python `str.strip()` whitespace. -/
def isPyWhitespace (c : Char) : Bool :=
  c = ' ' || c = '\t' || c = '\n' || c = '\r' || c = '\x0b' || c = '\x0c'

/-- The Python method `s.strip()`: drop leading and trailing whitespace. -/
def strTrim (s : String) : String :=
  String.mk (((s.data.dropWhile isPyWhitespace).reverse.dropWhile isPyWhitespace).reverse)

/-- The Python expression `sep.join(parts)`. -/
def strJoin (sep : String) : List String → String
  | [] => ""
  | [x] => x
  | x :: y :: xs => x ++ sep ++ strJoin sep (y :: xs)

/-- An RDF term as pyoxigraph exposes it: `NamedNode`, `BlankNode`, or
`Literal` (with an optional datatype URI; `none` is a plain literal). -/
inductive Term where
  | named (uri : String)
  | blank (id : String)
  | lit (lex : String) (datatype : Option String)
deriving DecidableEq

/-- A pyoxigraph quad; `graph = none` is the default graph. -/
structure Quad where
  subj : Term
  pred : Term
  obj : Term
  graph : Option Term
deriving DecidableEq

/-- `KGraphRDFDB._to_rdf_term` applied to a string argument: force a
`NamedNode`, recognise the URI schemes `http://`, `https://`, `urn:`,
recognise the `_:` blank-node sigil, then fall back to a plain literal when
literals are allowed and to a `NamedNode` otherwise. -/
def to_rdf_term (allowLiteral forceNamedNode : Bool) (t : String) : Term :=
  if forceNamedNode || (strStartsWith t "http://" || strStartsWith t "https://"
      || strStartsWith t "urn:") then
    Term.named t
  else if strStartsWith t "_:" then
    Term.blank (String.mk (t.data.drop 2))
  else if allowLiteral then
    Term.lit t none
  else
    Term.named t

/-- `pyoxigraph.Store.add`: set semantics, a structurally identical quad is
never stored twice. -/
def storeAdd (quads : List Quad) (q : Quad) : List Quad :=
  if q ∈ quads then quads else quads ++ [q]

/-- The object position of `add_triple` receives either a plain string or an
already-built pyoxigraph term (`_to_rdf_term` is the identity on the
latter). -/
inductive TermInput where
  | fromStr (s : String)
  | fromTerm (t : Term)
deriving DecidableEq

/-- `KGraphRDFDB._to_rdf_term` on a `TermInput`. -/
def to_rdf_term_input (allowLiteral forceNamedNode : Bool) : TermInput → Term
  | TermInput.fromStr s => to_rdf_term allowLiteral forceNamedNode s
  | TermInput.fromTerm t => t

/-- `KGraphRDFDB.add_triple`: convert the three positions (the subject with
`allow_literal=False`, the predicate with `force_named_node=True`, the object
with both defaults), attach the graph only when the graph argument is truthy
(`if graph:`), add to the store, and return `True`.  The documented
`False if it already existed` branch does not exist in the code: the only
`False` return is the exception handler, which a duplicate quad never
triggers.  `addQuadOf` is the quad a call to `add_triple` constructs. -/
def addQuadOf (subject predicate : String) (obj : TermInput) (graph : Option String) : Quad :=
  let s := to_rdf_term false false subject
  let p := to_rdf_term false true predicate
  let o := to_rdf_term_input true false obj
  match graph with
  | some g => if g = "" then { subj := s, pred := p, obj := o, graph := none }
              else { subj := s, pred := p, obj := o, graph := some (to_rdf_term false true g) }
  | none => { subj := s, pred := p, obj := o, graph := none }

/-- `KGraphRDFDB.add_triple`: add the constructed quad and return `True`. -/
def add_triple (quads : List Quad) (subject predicate : String) (obj : TermInput)
    (graph : Option String) : List Quad × Bool :=
  (storeAdd quads (addQuadOf subject predicate obj graph), true)

/-- Pattern match against a quad, as `Store.quads_for_pattern`: `none` in a
position is a wildcard. -/
def quadMatches (q : Quad) (s p o : Option Term) (g : Option Term) : Bool :=
  (match s with | none => true | some t => q.subj = t)
  && (match p with | none => true | some t => q.pred = t)
  && (match o with | none => true | some t => q.obj = t)
  && (match g with | none => true | some t => q.graph = some t)

/-- `KGraphRDFDB.remove_triple`: convert the non-`None` pattern positions
(the graph here with `if graph is not None`, not truthiness), collect the
matching quads, remove them, and return their count. -/
def remove_triple (quads : List Quad) (subject predicate obj graph : Option String) :
    List Quad × Nat :=
  let s := subject.map (to_rdf_term false false)
  let p := predicate.map (to_rdf_term false true)
  let o := obj.map (to_rdf_term true false)
  let g := graph.map (to_rdf_term false true)
  let matching := quads.filter (fun q => quadMatches q s p o g)
  (quads.filter (fun q => ¬ quadMatches q s p o g), matching.length)

/-- XSD datatype URIs used by the literal-typing helpers. -/
def xsdDateTime : String := "http://www.w3.org/2001/XMLSchema#dateTime"

def xsdDate : String := "http://www.w3.org/2001/XMLSchema#date"

def xsdLong : String := "http://www.w3.org/2001/XMLSchema#long"

def xsdDouble : String := "http://www.w3.org/2001/XMLSchema#double"

def xsdInteger : String := "http://www.w3.org/2001/XMLSchema#integer"

def xsdFloat : String := "http://www.w3.org/2001/XMLSchema#float"

def xsdBoolean : String := "http://www.w3.org/2001/XMLSchema#boolean"

def xsdString : String := "http://www.w3.org/2001/XMLSchema#string"

/-- The shapes a datatype hint can take when it reaches
`KGraphRDFDB._create_typed_literal`: a Python class (anything with
`__name__`; `pyClass name` carries that `__name__`), an RDFLib datatype
(anything with `toPython`, carried as `str(datatype)`), or a plain string. -/
inductive DatatypeHint where
  | pyClass (name : String)
  | rdflibDatatype (uri : String)
  | strHint (s : String)
deriving DecidableEq

/-- The second half of `KGraphRDFDB._create_typed_literal`: once a
`datatype_name` string is in hand, map it to an XSD datatype by
case-insensitive substring tests, in source order: `datetime`, `int`,
`float`, `bool` (with a lower-cased lexical value), otherwise
`xsd:string`. -/
def create_typed_literal_from_name (v name : String) : Term :=
  if strContains (strToLower name) "datetime" then Term.lit v (some xsdDateTime)
  else if strContains (strToLower name) "int" then Term.lit v (some xsdInteger)
  else if strContains (strToLower name) "float" then Term.lit v (some xsdFloat)
  else if strContains (strToLower name) "bool" then Term.lit (strToLower v) (some xsdBoolean)
  else Term.lit v (some xsdString)

/-- `KGraphRDFDB._create_typed_literal` on `str(value) = v`: an RDFLib
datatype or an `http...` string hint is used verbatim; a class hint
contributes its `__name__`; any other hint contributes `str(datatype)`
(modelled for the `None` hint, whose `str` form is `"None"`).  The
function's exception handler (fall back to the bare string `str(value)`)
is unreachable in this pure embedding. -/
def create_typed_literal (v : String) : Option DatatypeHint → Term
  | some (DatatypeHint.pyClass n) => create_typed_literal_from_name v n
  | some (DatatypeHint.rdflibDatatype u) => Term.lit v (some u)
  | some (DatatypeHint.strHint s) =>
      if strStartsWith s "http" then Term.lit v (some s)
      else create_typed_literal_from_name v s
  | none => create_typed_literal_from_name v "None"

/-- The class-name dispatch of `KGraphRDFDB._get_typed_literal` (the helper
whose mapping the specification describes; no caller in the repository
invokes it): case-sensitive substring tests `DateTime`, `Date`,
`Long`/`Integer`, `Double`/`Float`, `Boolean` (lower-cased value), with a
plain untyped literal as default. -/
def get_typed_literal_by_class_name (v className : String) : Term :=
  if strContains className "DateTime" then Term.lit v (some xsdDateTime)
  else if strContains className "Date" then Term.lit v (some xsdDate)
  else if strContains className "Long" || strContains className "Integer" then
    Term.lit v (some xsdLong)
  else if strContains className "Double" || strContains className "Float" then
    Term.lit v (some xsdDouble)
  else if strContains className "Boolean" then Term.lit (strToLower v) (some xsdBoolean)
  else Term.lit v none

/-- A JSON property value as `GraphObject.to_json()` yields it: either a
string (the only shape that can contribute projection text) or some other
JSON value, carried opaquely. -/
inductive JsonValue where
  | jstr (s : String)
  | jother (tag : String)
deriving DecidableEq

/-- The `rdf_data` dictionary a property instance's `to_rdf()` returns, as
`KGraphRDFDB._add_property_triple` consumes it: a `None` value, a list value
with its `data_class`, or a scalar `str(value)` with its datatype hint. -/
inductive PropRdfData where
  | noneValue
  | listData (elems : List String) (dataClass : Option DatatypeHint)
  | scalarData (value : String) (hint : Option DatatypeHint)
deriving DecidableEq

/-- The test `hasattr(datatype, '__name__') and 'URIRef' in datatype.__name__`
(with the extra `data_class and` guard of the list branch subsumed by the
`none` case). -/
def isUriRefHint : Option DatatypeHint → Bool
  | some (DatatypeHint.pyClass n) => strContains n "URIRef"
  | _ => false

/-- The quads one `_add_property_triple` call adds, in call order. -/
def property_add_quads (subjectUri propUri : String) (g : Option String) :
    PropRdfData → List Quad
  | PropRdfData.noneValue => []
  | PropRdfData.listData elems dataClass =>
      elems.map (fun v =>
        if isUriRefHint dataClass then addQuadOf subjectUri propUri (TermInput.fromStr v) g
        else addQuadOf subjectUri propUri
          (TermInput.fromTerm (create_typed_literal v dataClass)) g)
  | PropRdfData.scalarData v hint =>
      if isUriRefHint hint then [addQuadOf subjectUri propUri (TermInput.fromStr v) g]
      else [addQuadOf subjectUri propUri
        (TermInput.fromTerm (create_typed_literal v hint)) g]

/-- `KGraphRDFDB._add_property_triple`: `False` when the value is `None`,
otherwise add the branch's quads and return `True`. -/
def add_property_triple (quads : List Quad) (subjectUri propUri : String)
    (rdfData : PropRdfData) (g : Option String) : List Quad × Bool :=
  match rdfData with
  | PropRdfData.noneValue => (quads, false)
  | rd => ((property_add_quads subjectUri propUri g rd).foldl storeAdd quads, true)

def rdfTypeUri : String := "http://www.w3.org/1999/02/22-rdf-syntax-ns#type"

def vitalTypeUri : String := "http://vital.ai/ontology/vital-core#vitaltype"

/-- A concrete `GraphObject` as the synchronization engine consumes it:
`str(obj.URI)`, `obj.get_class_uri()`, the JSON property map `to_json()`
produces, and the `_properties` entries together with what each
`to_rdf()` call returns. -/
structure GraphObject where
  uri : String
  classUri : String
  jsonProps : List (String × JsonValue)
  rdfProps : List (String × PropRdfData)
deriving DecidableEq

/-- The quads `KGraphRDFDB.add_graph_object_triples` adds, in call order:
the `rdf:type` quad, the `vital-core#vitaltype` quad, then each property's
quads. -/
def object_quads (o : GraphObject) (g : Option String) : List Quad :=
  addQuadOf o.uri rdfTypeUri (TermInput.fromStr o.classUri) g
  :: addQuadOf o.uri vitalTypeUri (TermInput.fromStr o.classUri) g
  :: (o.rdfProps.map (fun pr => property_add_quads o.uri pr.1 g pr.2)).flatten

/-- `KGraphRDFDB.add_graph_object_triples`: on an internal exception the
method returns `False` (modelled by the `raises` flag); otherwise it issues
the `add_triple` calls in order — per-property exceptions are caught and
skipped inside the loop — and returns `True`. -/
def add_graph_object_triples (raises : Bool) (quads : List Quad) (o : GraphObject)
    (g : Option String) : List Quad × Bool :=
  if raises then (quads, false)
  else ((object_quads o g).foldl storeAdd quads, true)

/-- A qdrant point id as this codebase produces it.  `add_object` stores
records under `str(uuid.uuid5(uuid.NAMESPACE_URL, combined))`, a 36-character
hexadecimal-and-dash rendering; `update_object`, `remove_object` and
`get_object_vectors` address records by the raw combined string
`f"{uri}#{vector_id}"` instead.  The id space is modelled as a tagged union:
`uuid5 c` stands for the UUID string derived from `c`, and `plain s` for the
string `s` used verbatim.  Distinct combined strings give distinct UUIDs
(uuid5 is treated as collision-free, which the source also relies on), and a
UUID string never equals a raw combined string: every combined string
contains the character `#`, which never occurs in a UUID rendering. -/
inductive RecordId where
  | uuid5 (combined : String)
  | plain (s : String)
deriving DecidableEq

/-- The metadata dictionary stored with one projection vector
(`KGraph._graph_object_to_vector_data` plus the `original_record_id` entry
`add_object` inserts before storing): the field named `typeUri` is the
payload key `type`, and `propVals` are the resolved property values keyed by
their URIs. -/
structure VectorPayload where
  uri : String
  typeUri : String
  graph_uri : String
  propVals : List (String × JsonValue)
  vector_id : String
  vector_property_uris : List String
  original_record_id : String
deriving DecidableEq

/-- A stored qdrant point: the embedding model is deterministic, so the
record is represented by the text that was embedded (also stored as the
payload entry `_original_text`) plus the payload. -/
structure VectorRecord where
  text : String
  payload : VectorPayload
deriving DecidableEq

/-- First-match association-list lookup (Python dict read). -/
def lookupFirst {α β : Type} [DecidableEq α] : List (α × β) → α → Option β
  | [], _ => none
  | (k, v) :: rest, a => if k = a then some v else lookupFirst rest a

/-- Python dict write `d[k] = v`: replace the value in place when the key
exists, append otherwise.  Also models a qdrant upsert, which replaces the
point stored under an existing id. -/
def dictInsert {α β : Type} [DecidableEq α] : List (α × β) → α → β → List (α × β)
  | [], k, v => [(k, v)]
  | (k1, v1) :: rest, k, v =>
      if k1 = k then (k, v) :: rest else (k1, v1) :: dictInsert rest k v

/-- Python `dict.pop(k, None)`; also a qdrant delete of one id, which is a
no-op when nothing is stored under it. -/
def dictErase {α β : Type} [DecidableEq α] (l : List (α × β)) (k : α) : List (α × β) :=
  l.filter (fun e => ¬ (e.1 = k))

/-- `vector_mappings`: type URI → (vector id → ordered property-URI list). -/
abbrev VectorMappings := List (String × List (String × List String))

/-- `default_vector_mappings.get_vector_mappings_for_type`: the type's
mapping dictionary, `{}` when the type is absent. -/
def get_vector_mappings_for_type (m : VectorMappings) (typeUri : String) :
    List (String × List String) :=
  (lookupFirst m typeUri).getD []

/-- `default_vector_mappings.get_available_vector_ids_for_type`:
`list(type_mappings.keys())`. -/
def get_available_vector_ids_for_type (m : VectorMappings) (typeUri : String) :
    List String :=
  (get_vector_mappings_for_type m typeUri).map Prod.fst

/-- `KGraph._get_all_property_uris_from_mappings`: the union of the mapping
property-URI lists.  CPython iterates the resulting `set` in an arbitrary
but fixed order; the model fixes the deduplicated concatenation order, which
only influences the internal ordering of the payload's property-value
entries. -/
def all_property_uris (vm : List (String × List String)) : List String :=
  ((vm.map Prod.snd).flatten).dedup

/-- The `property_values` dictionary of `_graph_object_to_vector_data`
(equally the property-value entries of `base_metadata`): the object's JSON
values restricted to the mapping property URIs. -/
def base_property_values (vm : List (String × List String)) (o : GraphObject) :
    List (String × JsonValue) :=
  (all_property_uris vm).filterMap (fun u => (lookupFirst o.jsonProps u).map ((u, ·)))

/-- The projection text for one vector id: the space-joined stripped values
of the listed properties, in declared order, keeping only string values with
non-empty stripped form. -/
def projection_text (o : GraphObject) (propUris : List String) : String :=
  strJoin " " (propUris.filterMap (fun u =>
    match lookupFirst o.jsonProps u with
    | some (JsonValue.jstr s) => if strTrim s = "" then none else some (strTrim s)
    | _ => none))

/-- The metadata stored with vector id `vid` (property-URI list `uris`). -/
def vector_payload (vm : List (String × List String)) (graphUri : String)
    (o : GraphObject) (vid : String) (uris : List String) : VectorPayload :=
  { uri := o.uri, typeUri := o.classUri, graph_uri := graphUri,
    propVals := base_property_values vm o,
    vector_id := vid, vector_property_uris := uris,
    original_record_id := o.uri ++ "#" ++ vid }

/-- The full synchronized state of one `KGraph`: the pyoxigraph store, the
qdrant collection, and the in-process `_object_registry`. -/
structure KGraphState where
  quads : List Quad
  vectors : List (RecordId × VectorRecord)
  registry : List (String × String)
deriving DecidableEq

/-- The vector half of `KGraph.add_object`: walk the type's mapping entries
in declared order; an empty projection text stores nothing; otherwise
`add_text` is attempted at the deterministic uuid5 record id.  `vecFails`
lists the vector ids whose `add_text` call raises (embedding or upsert
failure); the surrounding `try` of `add_object` then aborts the remaining
iterations.  Returns the collection, the success flag, and the vector ids
whose `add_text` call was attempted, in order. -/
def add_vector_loop (graphUri : String) (vecFails : List String)
    (vm : List (String × List String)) (o : GraphObject) :
    List (String × List String) → List (RecordId × VectorRecord) →
    List (RecordId × VectorRecord) × Bool × List String
  | [], vecs => (vecs, true, [])
  | (vid, uris) :: rest, vecs =>
    let text := projection_text o uris
    if text = "" then add_vector_loop graphUri vecFails vm o rest vecs
    else if vid ∈ vecFails then (vecs, false, [vid])
    else
      let rid := RecordId.uuid5 (o.uri ++ "#" ++ vid)
      let rcd : VectorRecord := { text := text, payload := vector_payload vm graphUri o vid uris }
      let out := add_vector_loop graphUri vecFails vm o rest (dictInsert vecs rid rcd)
      (out.1, out.2.1, vid :: out.2.2)

/-- `KGraph.add_object`: write the object's triples (discarding the returned
flag), store one vector record per non-empty projection, register the
object, and return `True`; an exception escaping a vector write is caught
and converted to `False`, skipping the registry update.  The third component
reports which projection writes were attempted. -/
def add_object_run (m : VectorMappings) (graphUri : String) (rdfRaises : Bool)
    (vecFails : List String) (s : KGraphState) (o : GraphObject) :
    KGraphState × Bool × List String :=
  let quads1 := (add_graph_object_triples rdfRaises s.quads o (some graphUri)).1
  let vm := get_vector_mappings_for_type m o.classUri
  let out := add_vector_loop graphUri vecFails vm o vm s.vectors
  if out.2.1 then
    ({ quads := quads1, vectors := out.1,
       registry := dictInsert s.registry o.uri o.classUri }, true, out.2.2)
  else
    ({ quads := quads1, vectors := out.1, registry := s.registry }, false, out.2.2)

/-- `KGraph.add_object` on the failure-free path. -/
def add_object (m : VectorMappings) (graphUri : String) (s : KGraphState)
    (o : GraphObject) : KGraphState :=
  (add_object_run m graphUri false [] s o).1

/-- `KGraph.update_object`: remove the triples with the object's URI as
subject in this graph, delete the vector records addressed by the raw
combined ids `f"{uri}#{vector_id}"` for every vector id of the type, then
re-add via `add_object`. -/
def update_object (m : VectorMappings) (graphUri : String) (s : KGraphState)
    (o : GraphObject) : KGraphState × Bool :=
  let q1 := (remove_triple s.quads (some o.uri) none none (some graphUri)).1
  let vids := get_available_vector_ids_for_type m o.classUri
  let vecs := vids.foldl (fun vs vid => dictErase vs (RecordId.plain (o.uri ++ "#" ++ vid))) s.vectors
  let out := add_object_run m graphUri false []
    { quads := q1, vectors := vecs, registry := s.registry } o
  (out.1, out.2.1)

/-- `KGraph.remove_object`: look the type up in the registry, remove the
quads with the URI as subject and then as object in this graph, delete the
vector records addressed by the raw combined ids, drop the registry entry,
and return `True`. -/
def remove_object (m : VectorMappings) (graphUri : String) (s : KGraphState)
    (objectUri : String) : KGraphState × Bool :=
  let objectType := lookupFirst s.registry objectUri
  let q1 := (remove_triple s.quads (some objectUri) none none (some graphUri)).1
  let q2 := (remove_triple q1 none none (some objectUri) (some graphUri)).1
  let vecs := match objectType with
    | some ty => (get_available_vector_ids_for_type m ty).foldl
        (fun vs vid => dictErase vs (RecordId.plain (objectUri ++ "#" ++ vid))) s.vectors
    | none => s.vectors
  ({ quads := q2, vectors := vecs, registry := dictErase s.registry objectUri }, true)

/-- `KGraphRDFDB.get_graph_object`: fetch the quads with the given subject in
the given graph; `None` when there are none, otherwise hand them to the
VitalSigns reconstruction (an external collaborator, passed as a
function). -/
def get_graph_object (reconstruct : List Quad → Option GraphObject) (s : KGraphState)
    (graphUri : String) (subjectUri : String) : Option GraphObject :=
  let ts := s.quads.filter (fun q =>
    quadMatches q (some (to_rdf_term false false subjectUri)) none none
      (some (to_rdf_term false true graphUri)))
  if ts.isEmpty then none else reconstruct ts

/-- The caller's `filters` dictionary as it stands after
`KGraph.vector_search_by_type` returns: the method replaces `None` by a
fresh dictionary, then executes `filters['vector_id'] = vector_id` on the
very object the caller passed — no copy is made, so when the caller supplied
a dictionary this is an in-place mutation visible to the caller. -/
def vector_search_by_type_filters (filters : Option (List (String × JsonValue)))
    (vector_id : String) : List (String × JsonValue) :=
  let fs := match filters with | none => [] | some f => f
  dictInsert fs "vector_id" (JsonValue.jstr vector_id)

/-- One element of a `search_by_text` result list: the qdrant point id
(which `hybrid_search` reads as `result['id']` and binds into its ASK
query) together with the remaining dictionary entries, which the hybrid
filter never touches.  The list order is qdrant's descending score order. -/
structure SearchResult where
  id : String
  fields : List (String × String)
deriving DecidableEq

/-- A `hybrid_search` result: the candidate dictionary, plus the
`rdf_data` entry (`none` when the key was never added — the unfiltered
path; `some d` after `result['rdf_data'] = self.get_object(object_uri)`). -/
structure HybridResult where
  base : SearchResult
  rdf_data : Option (Option GraphObject)
deriving DecidableEq

/-- The ASK query text `hybrid_search` builds for one candidate, verbatim
from its f-string. -/
def hybrid_ask_query (graphUri filt objectUri : String) : String :=
  "\n            ASK \x7b\n                GRAPH <" ++ graphUri
    ++ "> \x7b\n                    <" ++ objectUri
    ++ "> ?p ?o .\n                    " ++ filt
    ++ "\n                \x7d\n            \x7d\n            "

/-- The filtering loop of `KGraph.hybrid_search`: in candidate order, ASK
the conjoined query for the candidate's id; on success enrich the candidate
with `get_object` and keep it, breaking once `len(filtered_results) >=
limit` after an append. -/
def hybrid_filter_go (graphUri : String) (ask : String → Bool)
    (getObject : String → Option GraphObject) (filt : String) (limit : Nat) :
    Nat → List SearchResult → List HybridResult
  | _, [] => []
  | count, r :: rest =>
    if ask (hybrid_ask_query graphUri filt r.id) then
      let kept : HybridResult := { base := r, rdf_data := some (getObject r.id) }
      if limit ≤ count + 1 then [kept]
      else kept :: hybrid_filter_go graphUri ask getObject filt limit (count + 1) rest
    else hybrid_filter_go graphUri ask getObject filt limit count rest

/-- `KGraph.hybrid_search`, given the list the over-fetching
`vector_search(query_text, filters, limit * 2)` call returned: with a falsy
SPARQL filter (absent or empty) the first `limit` candidates are returned
unchanged; otherwise the filtering loop runs over the candidates. -/
def hybrid_search (graphUri : String) (ask : String → Bool)
    (getObject : String → Option GraphObject) (vres : List SearchResult)
    (sparqlFilter : Option String) (limit : Nat) : List HybridResult :=
  match sparqlFilter with
  | none => (vres.take limit).map (fun r => { base := r, rdf_data := none })
  | some filt =>
      if filt = "" then (vres.take limit).map (fun r => { base := r, rdf_data := none })
      else hybrid_filter_go graphUri ask getObject filt limit 0 vres

/-- A one-type, one-projection mapping used for concrete evaluations. -/
def exMappings : VectorMappings := [("http://ex/T", [("general", ["http://ex/hasName"])])]

def exGraphUri : String := "http://ex/g"

/-- A freshly constructed `KGraph`: empty stores, empty registry. -/
def exInit : KGraphState := { quads := [], vectors := [], registry := [] }

/-- An object of type `http://ex/T` whose single projection property is the
non-empty string `Apple`. -/
def exApple : GraphObject :=
  { uri := "http://ex/o1", classUri := "http://ex/T",
    jsonProps := [("http://ex/hasName", JsonValue.jstr "Apple")],
    rdfProps := [("http://ex/hasName",
      PropRdfData.scalarData "Apple" (some (DatatypeHint.pyClass "StringProperty")))] }

/-- The same object after an update that empties its name. -/
def exAppleEmptyName : GraphObject :=
  { uri := "http://ex/o1", classUri := "http://ex/T",
    jsonProps := [("http://ex/hasName", JsonValue.jstr "")],
    rdfProps := [("http://ex/hasName",
      PropRdfData.scalarData "" (some (DatatypeHint.pyClass "StringProperty")))] }

/-- A two-projection mapping for the partial-failure scenario. -/
def exMappings2 : VectorMappings :=
  [("http://ex/T2", [("a", ["http://ex/p1"]), ("b", ["http://ex/p2"])])]

/-- An object of type `http://ex/T2` with both projection texts non-empty. -/
def exTwoProj : GraphObject :=
  { uri := "http://ex/o2", classUri := "http://ex/T2",
    jsonProps := [("http://ex/p1", JsonValue.jstr "x"), ("http://ex/p2", JsonValue.jstr "y")],
    rdfProps := [] }

/-- Looking up the key just written finds the written value. -/
theorem lookupFirst_dictInsert_self {α β : Type} [DecidableEq α]
    (l : List (α × β)) (k : α) (v : β) :
    lookupFirst (dictInsert l k v) k = some v := by
  induction l with
  | nil => simp [dictInsert, lookupFirst]
  | cons e rest ih =>
      by_cases h : e.1 = k
      · simp [dictInsert, lookupFirst, h]
      · simp [dictInsert, lookupFirst, h, ih]

/-- Writing one key leaves lookups of other keys unchanged. -/
theorem lookupFirst_dictInsert_ne {α β : Type} [DecidableEq α]
    (l : List (α × β)) (k k1 : α) (v : β) (h : k1 ≠ k) :
    lookupFirst (dictInsert l k v) k1 = lookupFirst l k1 := by
  have hk : ¬ k = k1 := fun hh => h hh.symm
  induction l with
  | nil => simp [dictInsert, lookupFirst, hk]
  | cons e rest ih =>
      obtain ⟨k0, v0⟩ := e
      by_cases he : k0 = k
      · subst he
        simp [dictInsert, lookupFirst, hk]
      · simp [dictInsert, lookupFirst, he, ih]

/-- Rewriting a key with the value it already holds is the identity. -/
theorem dictInsert_lookup_eq {α β : Type} [DecidableEq α]
    (l : List (α × β)) (k : α) (v : β) (h : lookupFirst l k = some v) :
    dictInsert l k v = l := by
  induction l with
  | nil => simp [lookupFirst] at h
  | cons e rest ih =>
      by_cases he : e.1 = k
      · obtain ⟨k0, v0⟩ := e
        simp only at he
        subst he
        simp [lookupFirst] at h
        simp [dictInsert, h]
      · obtain ⟨k0, v0⟩ := e
        simp only at he
        simp [lookupFirst, he] at h
        simp [dictInsert, he, ih h]

/-- Two successive writes to the same key are one write of the last value. -/
theorem dictInsert_dictInsert {α β : Type} [DecidableEq α]
    (l : List (α × β)) (k : α) (v w : β) :
    dictInsert (dictInsert l k w) k v = dictInsert l k v := by
  induction l with
  | nil => simp [dictInsert]
  | cons e rest ih =>
      by_cases he : e.1 = k
      · obtain ⟨k0, v0⟩ := e
        simp only at he
        subst he
        simp [dictInsert]
      · obtain ⟨k0, v0⟩ := e
        simp only at he
        simp [dictInsert, he, ih]

/-- A quad is a member of the store it was just added to. -/
theorem mem_storeAdd_self (quads : List Quad) (q : Quad) : q ∈ storeAdd quads q := by
  by_cases h : q ∈ quads <;> simp [storeAdd, h]

/-- Adding a quad already present leaves the store unchanged. -/
theorem storeAdd_eq_of_mem (quads : List Quad) (q : Quad) (h : q ∈ quads) :
    storeAdd quads q = quads := by
  simp [storeAdd, h]

/-- C7: adding a structurally identical quad twice stores it once — set
semantics holds — but the second `add_triple` call still returns `True`,
although its docstring promises `False if it already existed`: the code
always returns `True` outside the exception handler. -/
theorem add_triple_set_idempotent_but_returns_true
    (quads : List Quad) (s p : String) (o : TermInput) (g : Option String) :
    (add_triple (add_triple quads s p o g).1 s p o g).1 = (add_triple quads s p o g).1
    ∧ (add_triple (add_triple quads s p o g).1 s p o g).2 = true := by
  refine ⟨?_, rfl⟩
  simp [add_triple, storeAdd_eq_of_mem _ _ (mem_storeAdd_self quads (addQuadOf s p o g))]

/-- C9: `vector_search_by_type` mutates the caller's `filters` dictionary in
place: afterwards the dictionary maps `vector_id` to the given vector id,
and any value the caller had stored under that key beforehand is overwritten
(the second conjunct: a prior `vector_id` entry of any value `w` leaves no
trace in the final dictionary). -/
theorem vector_search_by_type_mutates_caller_filters
    (f : List (String × JsonValue)) (w : JsonValue) (vid : String) :
    lookupFirst (vector_search_by_type_filters (some f) vid) "vector_id"
      = some (JsonValue.jstr vid)
    ∧ vector_search_by_type_filters (some (dictInsert f "vector_id" w)) vid
      = vector_search_by_type_filters (some f) vid := by
  constructor
  · simp [vector_search_by_type_filters, lookupFirst_dictInsert_self]
  · simp [vector_search_by_type_filters, dictInsert_dictInsert]

/-- With no raising vector write, the vector loop reports success. -/
theorem add_vector_loop_nofail_ok (g : String) (vm : List (String × List String))
    (o : GraphObject) (entries : List (String × List String))
    (vecs : List (RecordId × VectorRecord)) :
    (add_vector_loop g [] vm o entries vecs).2.1 = true := by
  induction entries generalizing vecs with
  | nil => simp [add_vector_loop]
  | cons e rest ih =>
      obtain ⟨vid, uris⟩ := e
      by_cases ht : projection_text o uris = ""
      · simp [add_vector_loop, ht, ih]
      · simp [add_vector_loop, ht, ih]

/-- C10: `add_object` discards the boolean returned by the triple-write
step: its result is the same whether or not `add_graph_object_triples`
fails, and when the triple write fails with no vector write raising it still
returns `True`, with the store left without the object's triples. -/
theorem add_object_discards_rdf_write_failure
    (m : VectorMappings) (g : String) (s : KGraphState) (o : GraphObject)
    (vecFails : List String) :
    (add_object_run m g true vecFails s o).2.1 = (add_object_run m g false vecFails s o).2.1
    ∧ (add_object_run m g true [] s o).2.1 = true
    ∧ (add_object_run m g true [] s o).1.quads = s.quads := by
  refine ⟨?_, ?_, ?_⟩
  · cases hb : (add_vector_loop g vecFails (get_vector_mappings_for_type m o.classUri) o
        (get_vector_mappings_for_type m o.classUri) s.vectors).2.1 <;>
      simp [add_object_run, hb]
  · simp [add_object_run, add_vector_loop_nofail_ok]
  · simp [add_object_run, add_graph_object_triples, add_vector_loop_nofail_ok]

/-- C6 counterexample: on the write path, a datatype hint named `Long` is
written as `xsd:string`, not `xsd:long` as the claim states. -/
theorem create_typed_literal_long_counterexample :
    create_typed_literal "5" (some (DatatypeHint.pyClass "Long")) = Term.lit "5" (some xsdString)
    ∧ create_typed_literal "5" (some (DatatypeHint.pyClass "Long")) ≠ Term.lit "5" (some xsdLong) := by
  exact ⟨by decide, by decide⟩

/-- C6 amended: on the write path (`_create_typed_literal`) an RDFLib
datatype or an `http...` string hint is used verbatim, and a class-name
hint is matched case-insensitively on the substrings `datetime` →
`xsd:dateTime`, `int` → `xsd:integer`, `float` → `xsd:float`, `bool` →
`xsd:boolean` with a lower-cased lexical value, anything else →
`xsd:string`.  The `DateTime`/`Date`/`Long`-`Integer`/`Double`-`Float`
table the claim describes is implemented only by the uncalled read-side
helper `_get_typed_literal`: a hint name containing `Long` but none of the
write-path substrings is written as `xsd:string` although that helper would
type it `xsd:long`. -/
theorem create_typed_literal_actual_mapping
    (v name nameDT nameI nameF nameB u s2 : String)
    (hdt : strContains (strToLower name) "datetime" = false)
    (hin : strContains (strToLower name) "int" = false)
    (hfl : strContains (strToLower name) "float" = false)
    (hbl : strContains (strToLower name) "bool" = false)
    (hnDT : strContains name "DateTime" = false)
    (hnD : strContains name "Date" = false)
    (hnL : strContains name "Long" = true)
    (h2 : strContains (strToLower nameDT) "datetime" = true)
    (hi1 : strContains (strToLower nameI) "datetime" = false)
    (hi2 : strContains (strToLower nameI) "int" = true)
    (hf1 : strContains (strToLower nameF) "datetime" = false)
    (hf2 : strContains (strToLower nameF) "int" = false)
    (hf3 : strContains (strToLower nameF) "float" = true)
    (hb1 : strContains (strToLower nameB) "datetime" = false)
    (hb2 : strContains (strToLower nameB) "int" = false)
    (hb3 : strContains (strToLower nameB) "float" = false)
    (hb4 : strContains (strToLower nameB) "bool" = true)
    (hhttp : strStartsWith s2 "http" = true) :
    create_typed_literal v (some (DatatypeHint.pyClass name)) = Term.lit v (some xsdString)
    ∧ get_typed_literal_by_class_name v name = Term.lit v (some xsdLong)
    ∧ create_typed_literal v (some (DatatypeHint.pyClass nameDT)) = Term.lit v (some xsdDateTime)
    ∧ create_typed_literal v (some (DatatypeHint.pyClass nameI)) = Term.lit v (some xsdInteger)
    ∧ create_typed_literal v (some (DatatypeHint.pyClass nameF)) = Term.lit v (some xsdFloat)
    ∧ create_typed_literal v (some (DatatypeHint.pyClass nameB))
        = Term.lit (strToLower v) (some xsdBoolean)
    ∧ create_typed_literal v (some (DatatypeHint.rdflibDatatype u)) = Term.lit v (some u)
    ∧ create_typed_literal v (some (DatatypeHint.strHint s2)) = Term.lit v (some s2) := by
  refine ⟨?_, ?_, ?_, ?_, ?_, ?_, ?_, ?_⟩ <;>
    simp [create_typed_literal, create_typed_literal_from_name,
      get_typed_literal_by_class_name, hdt, hin, hfl, hbl, hnDT, hnD, hnL, h2,
      hi1, hi2, hf1, hf2, hf3, hb1, hb2, hb3, hb4, hhttp]

/-- Witness for the amended C6 theorem at the hint names `Long`,
`DateTimeProperty`, `IntegerProperty`, `FloatProperty` and
`BooleanProperty`, an RDFLib datatype URI and a direct XSD URI string
hint. -/
theorem create_typed_literal_actual_mapping_witness :
    (strContains (strToLower "Long") "datetime" = false
      ∧ strContains (strToLower "Long") "int" = false
      ∧ strContains (strToLower "Long") "float" = false
      ∧ strContains (strToLower "Long") "bool" = false
      ∧ strContains "Long" "DateTime" = false
      ∧ strContains "Long" "Date" = false
      ∧ strContains "Long" "Long" = true
      ∧ strContains (strToLower "DateTimeProperty") "datetime" = true
      ∧ strContains (strToLower "IntegerProperty") "datetime" = false
      ∧ strContains (strToLower "IntegerProperty") "int" = true
      ∧ strContains (strToLower "FloatProperty") "datetime" = false
      ∧ strContains (strToLower "FloatProperty") "int" = false
      ∧ strContains (strToLower "FloatProperty") "float" = true
      ∧ strContains (strToLower "BooleanProperty") "datetime" = false
      ∧ strContains (strToLower "BooleanProperty") "int" = false
      ∧ strContains (strToLower "BooleanProperty") "float" = false
      ∧ strContains (strToLower "BooleanProperty") "bool" = true
      ∧ strStartsWith "http://www.w3.org/2001/XMLSchema#long" "http" = true)
    ∧ (create_typed_literal "True" (some (DatatypeHint.pyClass "Long"))
        = Term.lit "True" (some xsdString)
      ∧ get_typed_literal_by_class_name "True" "Long" = Term.lit "True" (some xsdLong)
      ∧ create_typed_literal "True" (some (DatatypeHint.pyClass "DateTimeProperty"))
        = Term.lit "True" (some xsdDateTime)
      ∧ create_typed_literal "True" (some (DatatypeHint.pyClass "IntegerProperty"))
        = Term.lit "True" (some xsdInteger)
      ∧ create_typed_literal "True" (some (DatatypeHint.pyClass "FloatProperty"))
        = Term.lit "True" (some xsdFloat)
      ∧ create_typed_literal "True" (some (DatatypeHint.pyClass "BooleanProperty"))
        = Term.lit (strToLower "True") (some xsdBoolean)
      ∧ create_typed_literal "True" (some (DatatypeHint.rdflibDatatype "http://ex/dt"))
        = Term.lit "True" (some "http://ex/dt")
      ∧ create_typed_literal "True"
          (some (DatatypeHint.strHint "http://www.w3.org/2001/XMLSchema#long"))
        = Term.lit "True" (some "http://www.w3.org/2001/XMLSchema#long")) := by
  have hall : strContains (strToLower "Long") "datetime" = false
      ∧ strContains (strToLower "Long") "int" = false
      ∧ strContains (strToLower "Long") "float" = false
      ∧ strContains (strToLower "Long") "bool" = false
      ∧ strContains "Long" "DateTime" = false
      ∧ strContains "Long" "Date" = false
      ∧ strContains "Long" "Long" = true
      ∧ strContains (strToLower "DateTimeProperty") "datetime" = true
      ∧ strContains (strToLower "IntegerProperty") "datetime" = false
      ∧ strContains (strToLower "IntegerProperty") "int" = true
      ∧ strContains (strToLower "FloatProperty") "datetime" = false
      ∧ strContains (strToLower "FloatProperty") "int" = false
      ∧ strContains (strToLower "FloatProperty") "float" = true
      ∧ strContains (strToLower "BooleanProperty") "datetime" = false
      ∧ strContains (strToLower "BooleanProperty") "int" = false
      ∧ strContains (strToLower "BooleanProperty") "float" = false
      ∧ strContains (strToLower "BooleanProperty") "bool" = true
      ∧ strStartsWith "http://www.w3.org/2001/XMLSchema#long" "http" = true := by
    decide
  obtain ⟨e1, e2, e3, e4, e5, e6, e7, e8, e9, e10, e11, e12, e13, e14, e15, e16, e17, e18⟩ := hall
  refine ⟨⟨e1, e2, e3, e4, e5, e6, e7, e8, e9, e10, e11, e12, e13, e14, e15, e16, e17, e18⟩, ?_⟩
  exact create_typed_literal_actual_mapping "True" "Long" "DateTimeProperty" "IntegerProperty"
    "FloatProperty" "BooleanProperty" "http://ex/dt" "http://www.w3.org/2001/XMLSchema#long"
    e1 e2 e3 e4 e5 e6 e7 e8 e9 e10 e11 e12 e13 e14 e15 e16 e17 e18

/-- C1: after `add_object` of `exApple` and `remove_object` of its URI, the
call returns `True`, the store holds no quad at all (so none with the URI as
subject or object, and `get_object` yields `None` whatever the
reconstruction does) — but the vector record stored at the deterministic id
`uuid5(NAMESPACE_URL, "http://ex/o1#general")` is still present with its
original text, because `remove_object` deletes the raw combined id
`"http://ex/o1#general"` instead of the uuid5 id `add_object` stored
under. -/
theorem remove_object_misses_uuid5_record (reconstruct : List Quad → Option GraphObject) :
    (remove_object exMappings exGraphUri
        (add_object exMappings exGraphUri exInit exApple) "http://ex/o1").2 = true
    ∧ (remove_object exMappings exGraphUri
        (add_object exMappings exGraphUri exInit exApple) "http://ex/o1").1.quads = []
    ∧ get_graph_object reconstruct
        (remove_object exMappings exGraphUri
          (add_object exMappings exGraphUri exInit exApple) "http://ex/o1").1
        exGraphUri "http://ex/o1" = none
    ∧ (lookupFirst
        (remove_object exMappings exGraphUri
          (add_object exMappings exGraphUri exInit exApple) "http://ex/o1").1.vectors
        (RecordId.uuid5 "http://ex/o1#general")).map VectorRecord.text = some "Apple" := by
  exact ⟨by decide, by decide, rfl, by decide⟩

/-- C2: `exApple` is added (projection text `Apple`, non-empty), then
`update_object` replaces it with `exAppleEmptyName`, whose projection text
is empty.  The update returns `True`, yet the record at the deterministic id
`uuid5(NAMESPACE_URL, "http://ex/o1#general")` still exists afterwards with
the stale text `Apple`: the update deleted the raw combined id
`"http://ex/o1#general"` (a no-op) and the re-add stored nothing for the
empty projection. -/
theorem update_object_keeps_stale_projection :
    projection_text exAppleEmptyName ["http://ex/hasName"] = ""
    ∧ (update_object exMappings exGraphUri
        (add_object exMappings exGraphUri exInit exApple) exAppleEmptyName).2 = true
    ∧ (lookupFirst
        (update_object exMappings exGraphUri
          (add_object exMappings exGraphUri exInit exApple) exAppleEmptyName).1.vectors
        (RecordId.uuid5 "http://ex/o1#general")).map VectorRecord.text = some "Apple" := by
  exact ⟨by decide, by decide, by decide⟩

/-- C8 counterexample: with both projections non-empty, a raising `add_text`
for projection `a` stops projection `b` from being attempted at all (without
the failure both are attempted, second conjunct), so one projection's
failure does prevent the remaining projections' writes. -/
theorem add_object_one_projection_failure_blocks_next :
    (add_object_run exMappings2 exGraphUri false ["a"] exInit exTwoProj).2.2 = ["a"]
    ∧ (add_object_run exMappings2 exGraphUri false [] exInit exTwoProj).2.2 = ["a", "b"]
    ∧ lookupFirst (add_object_run exMappings2 exGraphUri false ["a"] exInit exTwoProj).1.vectors
        (RecordId.uuid5 "http://ex/o2#b") = none
    ∧ (add_object_run exMappings2 exGraphUri false ["a"] exInit exTwoProj).2.1 = false := by
  exact ⟨by decide, by decide, by decide, by decide⟩

/-- Behaviour of the vector loop up to the first raising projection: the
entries before it with non-empty text are attempted and stored, the raising
one is attempted and aborts, nothing after it is attempted. -/
theorem add_vector_loop_first_failure (g : String) (vecFails : List String)
    (vm : List (String × List String)) (o : GraphObject)
    (a : String) (us : List String) (l2 : List (String × List String)) :
    ∀ (l1 : List (String × List String)) (vecs : List (RecordId × VectorRecord)),
    (∀ e ∈ l1, projection_text o e.2 ≠ "" → e.1 ∉ vecFails) →
    projection_text o us ≠ "" → a ∈ vecFails →
    (add_vector_loop g vecFails vm o (l1 ++ (a, us) :: l2) vecs).2.1 = false
    ∧ (add_vector_loop g vecFails vm o (l1 ++ (a, us) :: l2) vecs).2.2
      = (l1.filter (fun e => ¬ (projection_text o e.2 = ""))).map Prod.fst ++ [a] := by
  intro l1
  induction l1 with
  | nil =>
      intro vecs _ ha haf
      simp [add_vector_loop, ha, haf]
  | cons e l1 ih =>
      intro vecs h1 ha haf
      obtain ⟨vid, uris⟩ := e
      have h1head := h1 (vid, uris) (List.mem_cons_self _ _)
      have h1tail : ∀ e ∈ l1, projection_text o e.2 ≠ "" → e.1 ∉ vecFails :=
        fun e he => h1 e (List.mem_cons_of_mem _ he)
      by_cases ht : projection_text o uris = ""
      · have := ih vecs h1tail ha haf
        simp [add_vector_loop, ht, this.1, this.2]
      · have hnf : vid ∉ vecFails := h1head ht
        have := ih (dictInsert vecs (RecordId.uuid5 (o.uri ++ "#" ++ vid))
          { text := projection_text o uris, payload := vector_payload vm g o vid uris })
          h1tail ha haf
        simp [add_vector_loop, ht, hnf, this.1, this.2]

/-- C8 amended: `add_object` issues the triple write before any vector
write, so a raising projection write never prevents it; but the projection
writes run inside one `try`, so the first raising projection write aborts
the loop — the attempted projections are exactly the earlier-declared
non-empty ones plus the failing one — and `add_object` returns `False`. -/
theorem add_object_triple_write_unaffected_but_loop_aborts
    (m : VectorMappings) (g : String) (s : KGraphState) (o : GraphObject)
    (rdfRaises : Bool) (vecFails : List String)
    (l1 l2 : List (String × List String)) (a : String) (us : List String)
    (hsplit : get_vector_mappings_for_type m o.classUri = l1 ++ (a, us) :: l2)
    (h1 : ∀ e ∈ l1, projection_text o e.2 ≠ "" → e.1 ∉ vecFails)
    (ha : projection_text o us ≠ "") (haf : a ∈ vecFails) :
    (add_object_run m g rdfRaises vecFails s o).2.1 = false
    ∧ (add_object_run m g rdfRaises vecFails s o).2.2
      = (l1.filter (fun e => ¬ (projection_text o e.2 = ""))).map Prod.fst ++ [a]
    ∧ (add_object_run m g rdfRaises vecFails s o).1.quads
      = (add_graph_object_triples rdfRaises s.quads o (some g)).1 := by
  have hl := add_vector_loop_first_failure g vecFails (l1 ++ (a, us) :: l2) o a us l2 l1
    s.vectors h1 ha haf
  refine ⟨?_, ?_, ?_⟩ <;> simp [add_object_run, hsplit, hl.1, hl.2]

/-- Witness for the amended C8 theorem: mapping `exMappings2`, object
`exTwoProj`, the write for `b` raising. -/
theorem add_object_loop_abort_witness :
    get_vector_mappings_for_type exMappings2 exTwoProj.classUri
      = [("a", ["http://ex/p1"])] ++ ("b", ["http://ex/p2"]) :: []
    ∧ (∀ e ∈ [("a", ["http://ex/p1"])], projection_text exTwoProj e.2 ≠ "" → e.1 ∉ ["b"])
    ∧ projection_text exTwoProj ["http://ex/p2"] ≠ ""
    ∧ "b" ∈ ["b"]
    ∧ ((add_object_run exMappings2 exGraphUri false ["b"] exInit exTwoProj).2.1 = false
      ∧ (add_object_run exMappings2 exGraphUri false ["b"] exInit exTwoProj).2.2
        = ([("a", ["http://ex/p1"])].filter
            (fun e => ¬ (projection_text exTwoProj e.2 = ""))).map Prod.fst ++ ["b"]
      ∧ (add_object_run exMappings2 exGraphUri false ["b"] exInit exTwoProj).1.quads
        = (add_graph_object_triples false exInit.quads exTwoProj (some exGraphUri)).1) :=
  ⟨by decide, by decide, by decide, by decide,
   add_object_triple_write_unaffected_but_loop_aborts exMappings2 exGraphUri exInit exTwoProj
     false ["b"] [("a", ["http://ex/p1"])] [] "b" ["http://ex/p2"]
     (by decide) (by decide) (by decide) (by decide)⟩

/-- The hybrid filtering loop keeps at most `limit - count` candidates once
`count` are already kept (and at least one more slot is open). -/
theorem hybrid_filter_go_length (graphUri : String) (ask : String → Bool)
    (getObject : String → Option GraphObject) (filt : String) (limit : Nat) :
    ∀ (l : List SearchResult) (count : Nat), count + 1 ≤ limit →
    (hybrid_filter_go graphUri ask getObject filt limit count l).length ≤ limit - count := by
  intro l
  induction l with
  | nil => intro count h; simp [hybrid_filter_go]
  | cons r rest ih =>
      intro count h
      cases hq : ask (hybrid_ask_query graphUri filt r.id) with
      | false => simpa [hybrid_filter_go, hq] using ih count h
      | true =>
          by_cases hlim : limit ≤ count + 1
          · simp [hybrid_filter_go, hq, hlim]
            omega
          · have := ih (count + 1) (by omega)
            simp [hybrid_filter_go, hq, hlim]
            omega

/-- Every candidate the hybrid filtering loop keeps passed its ASK query and
was enriched with the `get_object` result for its id. -/
theorem hybrid_filter_go_mem (graphUri : String) (ask : String → Bool)
    (getObject : String → Option GraphObject) (filt : String) (limit : Nat) :
    ∀ (l : List SearchResult) (count : Nat) (r : HybridResult),
    r ∈ hybrid_filter_go graphUri ask getObject filt limit count l →
    ask (hybrid_ask_query graphUri filt r.base.id) = true
    ∧ r.rdf_data = some (getObject r.base.id) := by
  intro l
  induction l with
  | nil => intro count r hr; simp [hybrid_filter_go] at hr
  | cons rr rest ih =>
      intro count r hr
      cases hq : ask (hybrid_ask_query graphUri filt rr.id) with
      | false =>
          rw [hybrid_filter_go, hq] at hr
          exact ih count r (by simp at hr; exact hr)
      | true =>
          by_cases hlim : limit ≤ count + 1
          · rw [hybrid_filter_go, hq] at hr
            simp [hlim] at hr
            subst hr
            exact ⟨hq, rfl⟩
          · rw [hybrid_filter_go, hq] at hr
            simp [hlim] at hr
            rcases hr with hr | hr
            · subst hr
              exact ⟨hq, rfl⟩
            · exact ih (count + 1) r hr

/-- The kept candidates form a sublist of the candidate list: score order is
preserved and nothing outside the over-fetched window is consulted. -/
theorem hybrid_filter_go_sublist (graphUri : String) (ask : String → Bool)
    (getObject : String → Option GraphObject) (filt : String) (limit : Nat) :
    ∀ (l : List SearchResult) (count : Nat),
    ((hybrid_filter_go graphUri ask getObject filt limit count l).map
      HybridResult.base).Sublist l := by
  intro l
  induction l with
  | nil => intro count; simp [hybrid_filter_go]
  | cons rr rest ih =>
      intro count
      cases hq : ask (hybrid_ask_query graphUri filt rr.id) with
      | false =>
          rw [hybrid_filter_go, hq]
          exact List.Sublist.cons rr (by simpa using ih count)
      | true =>
          by_cases hlim : limit ≤ count + 1
          · rw [hybrid_filter_go, hq]
            simp [hlim]
          · rw [hybrid_filter_go, hq]
            simp [hlim]
            exact ih (count + 1)

/-- C3: given the candidate list returned by the over-fetching
`vector_search(text, filters, limit * 2)` call (`hlen` is that call's limit
contract), `hybrid_search` returns at most `limit` results for any filter;
with no SPARQL filter it returns the first `limit` candidates unchanged; and
with a non-empty filter every returned result's bound id passed the ASK
query conjoining the filter (and carries the reconstructed object), the
results being a sublist of the candidates — in score order, with no fetch
beyond the over-fetch window even if fewer than `limit` survive. -/
theorem hybrid_search_filter_safety
    (graphUri : String) (ask : String → Bool) (getObject : String → Option GraphObject)
    (vres : List SearchResult) (f : Option String) (flt : String) (limit : Nat)
    (hlen : vres.length ≤ limit * 2) (hflt : flt ≠ "") :
    (hybrid_search graphUri ask getObject vres f limit).length ≤ limit
    ∧ hybrid_search graphUri ask getObject vres none limit
        = (vres.take limit).map (fun r => { base := r, rdf_data := none })
    ∧ (∀ r ∈ hybrid_search graphUri ask getObject vres (some flt) limit,
        ask (hybrid_ask_query graphUri flt r.base.id) = true
        ∧ r.rdf_data = some (getObject r.base.id))
    ∧ ((hybrid_search graphUri ask getObject vres (some flt) limit).map
        HybridResult.base).Sublist vres := by
  have hlenall : ∀ f1, (hybrid_search graphUri ask getObject vres f1 limit).length ≤ limit := by
    intro f1
    have htake : ((vres.take limit).map
        (fun r => ({ base := r, rdf_data := none } : HybridResult))).length ≤ limit := by
      simp [List.length_take]
    match f1 with
    | none => simp [hybrid_search, List.length_take]
    | some filt =>
        by_cases hf : filt = ""
        · simp [hybrid_search, hf, List.length_take]
        · by_cases hz : limit = 0
          · subst hz
            have : vres = [] := List.eq_nil_of_length_eq_zero (Nat.le_zero.mp (by simpa using hlen))
            subst this
            simp [hybrid_search, hf, hybrid_filter_go]
          · have h1 : 0 + 1 ≤ limit := by omega
            have := hybrid_filter_go_length graphUri ask getObject filt limit vres 0 h1
            simpa [hybrid_search, hf] using le_trans this (by omega)
  refine ⟨hlenall f, rfl, ?_, ?_⟩
  · intro r hr
    rw [hybrid_search] at hr
    simp only [hflt, if_false] at hr
    exact hybrid_filter_go_mem graphUri ask getObject flt limit vres 0 r hr
  · rw [hybrid_search]
    simp only [hflt, if_false]
    exact hybrid_filter_go_sublist graphUri ask getObject flt limit vres 0

/-- Witness for C3: three candidates, everything passing the ASK oracle,
limit two. -/
theorem hybrid_search_filter_safety_witness :
    ([⟨"u1", []⟩, ⟨"u2", []⟩, ⟨"u3", []⟩] : List SearchResult).length ≤ 2 * 2
    ∧ ("?s ?p ?o ." : String) ≠ ""
    ∧ ((hybrid_search exGraphUri (fun _ => true) (fun _ => none)
          [⟨"u1", []⟩, ⟨"u2", []⟩, ⟨"u3", []⟩] (some "?s ?p ?o .") 2).length ≤ 2
      ∧ hybrid_search exGraphUri (fun _ => true) (fun _ => none)
          [⟨"u1", []⟩, ⟨"u2", []⟩, ⟨"u3", []⟩] none 2
        = (([⟨"u1", []⟩, ⟨"u2", []⟩, ⟨"u3", []⟩] : List SearchResult).take 2).map
            (fun r => { base := r, rdf_data := none })
      ∧ (∀ r ∈ hybrid_search exGraphUri (fun _ => true) (fun _ => none)
            [⟨"u1", []⟩, ⟨"u2", []⟩, ⟨"u3", []⟩] (some "?s ?p ?o .") 2,
          (fun (_ : String) => true) (hybrid_ask_query exGraphUri "?s ?p ?o ." r.base.id) = true
          ∧ r.rdf_data = some ((fun _ => none) r.base.id))
      ∧ ((hybrid_search exGraphUri (fun _ => true) (fun _ => none)
            [⟨"u1", []⟩, ⟨"u2", []⟩, ⟨"u3", []⟩] (some "?s ?p ?o .") 2).map
          HybridResult.base).Sublist [⟨"u1", []⟩, ⟨"u2", []⟩, ⟨"u3", []⟩]) :=
  ⟨by decide, by decide,
   hybrid_search_filter_safety exGraphUri (fun _ => true) (fun _ => none)
     [⟨"u1", []⟩, ⟨"u2", []⟩, ⟨"u3", []⟩] (some "?s ?p ?o .") "?s ?p ?o ." 2
     (by decide) (by decide)⟩

/-- String concatenation is left-cancellative. -/
theorem string_append_cancel_left (s t u : String) (h : s ++ t = s ++ u) : t = u := by
  have hd : (s ++ t).data = (s ++ u).data := by rw [h]
  rw [String.data_append, String.data_append] at hd
  have := List.append_cancel_left hd
  cases t; cases u; simp_all

/-- Distinct vector ids of one object give distinct deterministic uuid5
record ids. -/
theorem uuid5_key_ne (u p vid : String) (h : vid ≠ p) :
    RecordId.uuid5 (u ++ "#" ++ vid) ≠ RecordId.uuid5 (u ++ "#" ++ p) := by
  intro hc
  exact h (string_append_cancel_left (u ++ "#") vid p (by simpa using hc))

/-- The failure-free vector loop never touches record ids outside the ids it
derives from its entries. -/
theorem add_vector_loop_lookup_other (g : String) (vm : List (String × List String))
    (o : GraphObject) (key : RecordId) :
    ∀ (entries : List (String × List String)) (vecs : List (RecordId × VectorRecord)),
    (∀ e ∈ entries, RecordId.uuid5 (o.uri ++ "#" ++ e.1) ≠ key) →
    lookupFirst (add_vector_loop g [] vm o entries vecs).1 key = lookupFirst vecs key := by
  intro entries
  induction entries with
  | nil => intro vecs _; rfl
  | cons e rest ih =>
      intro vecs hne
      obtain ⟨vid, uris⟩ := e
      have hhead := hne (vid, uris) (List.mem_cons_self _ _)
      have htail : ∀ e ∈ rest, RecordId.uuid5 (o.uri ++ "#" ++ e.1) ≠ key :=
        fun e he => hne e (List.mem_cons_of_mem _ he)
      by_cases ht : projection_text o uris = ""
      · simpa [add_vector_loop, ht] using ih vecs htail
      · have := ih (dictInsert vecs (RecordId.uuid5 (o.uri ++ "#" ++ vid))
          { text := projection_text o uris, payload := vector_payload vm g o vid uris }) htail
        rw [add_vector_loop]
        simp only [ht, if_false]
        simp only [List.not_mem_nil, if_false, if_neg (fun hh => hh)]
        exact this.trans (lookupFirst_dictInsert_ne vecs _ key _ (fun hh => hhead hh.symm))

/-- What the failure-free vector loop leaves under the deterministic id of a
declared projection `p` (declared once, as Python dict keys are): the fresh
record when its text is non-empty, the prior content otherwise. -/
theorem add_vector_loop_lookup (g : String) (vm : List (String × List String))
    (o : GraphObject) (p : String) (uris : List String) :
    ∀ (entries : List (String × List String)) (vecs : List (RecordId × VectorRecord)),
    lookupFirst entries p = some uris →
    (entries.map Prod.fst).Nodup →
    lookupFirst (add_vector_loop g [] vm o entries vecs).1 (RecordId.uuid5 (o.uri ++ "#" ++ p))
      = if projection_text o uris = ""
        then lookupFirst vecs (RecordId.uuid5 (o.uri ++ "#" ++ p))
        else some { text := projection_text o uris, payload := vector_payload vm g o p uris } := by
  intro entries
  induction entries with
  | nil => intro vecs hm _; simp [lookupFirst] at hm
  | cons e rest ih =>
      intro vecs hm hnd
      obtain ⟨vid, us⟩ := e
      have hnd0 : (vid :: rest.map Prod.fst).Nodup := by simpa using hnd
      have hnd1 := List.nodup_cons.mp hnd0
      rw [lookupFirst] at hm
      by_cases hv : vid = p
      · subst hv
        rw [if_pos rfl] at hm
        have hus : us = uris := Option.some.inj hm
        subst hus
        have hrestne : ∀ e ∈ rest,
            RecordId.uuid5 (o.uri ++ "#" ++ e.1) ≠ RecordId.uuid5 (o.uri ++ "#" ++ vid) := by
          intro e he
          refine uuid5_key_ne o.uri vid e.1 ?_
          intro hh
          exact hnd1.1 (hh ▸ List.mem_map_of_mem Prod.fst he)
        by_cases ht : projection_text o us = ""
        · rw [if_pos ht]
          have := add_vector_loop_lookup_other g vm o
            (RecordId.uuid5 (o.uri ++ "#" ++ vid)) rest vecs hrestne
          simpa [add_vector_loop, ht] using this
        · rw [if_neg ht]
          have := add_vector_loop_lookup_other g vm o
            (RecordId.uuid5 (o.uri ++ "#" ++ vid)) rest
            (dictInsert vecs (RecordId.uuid5 (o.uri ++ "#" ++ vid))
              { text := projection_text o us, payload := vector_payload vm g o vid us }) hrestne
          rw [add_vector_loop]
          simp only [ht, if_false]
          simp only [List.not_mem_nil, if_false, if_neg (fun hh => hh)]
          rw [this, lookupFirst_dictInsert_self]
      · rw [if_neg hv] at hm
        have hkey : RecordId.uuid5 (o.uri ++ "#" ++ p)
            ≠ RecordId.uuid5 (o.uri ++ "#" ++ vid) :=
          uuid5_key_ne o.uri vid p (fun hh => hv hh.symm)
        by_cases ht : projection_text o us = ""
        · rw [add_vector_loop]
          simp only [ht, if_true]
          exact ih vecs hm hnd1.2
        · rw [add_vector_loop]
          simp only [ht, if_false]
          simp only [List.not_mem_nil, if_false, if_neg (fun hh => hh)]
          rw [ih _ hm hnd1.2]
          by_cases ht2 : projection_text o uris = ""
          · rw [if_pos ht2, if_pos ht2,
              lookupFirst_dictInsert_ne vecs _ _ _ hkey]
          · rw [if_neg ht2, if_neg ht2]

/-- Membership in the store survives further additions. -/
theorem mem_storeAdd_of_mem (qs : List Quad) (q q1 : Quad) (h : q ∈ qs) :
    q ∈ storeAdd qs q1 := by
  by_cases h1 : q1 ∈ qs <;> simp [storeAdd, h1, h]

/-- Membership in the store survives a whole sequence of additions. -/
theorem mem_foldl_storeAdd_of_mem (l : List Quad) :
    ∀ (qs : List Quad) (q : Quad), q ∈ qs → q ∈ l.foldl storeAdd qs := by
  induction l with
  | nil => intro qs q h; simpa using h
  | cons a rest ih => intro qs q h; exact ih _ _ (mem_storeAdd_of_mem qs q a h)

/-- Every quad of an added sequence is in the resulting store. -/
theorem mem_foldl_storeAdd_self (l : List Quad) :
    ∀ (qs : List Quad) (q : Quad), q ∈ l → q ∈ l.foldl storeAdd qs := by
  induction l with
  | nil => intro qs q h; simp at h
  | cons a rest ih =>
      intro qs q h
      rcases List.mem_cons.mp h with h | h
      · subst h
        exact mem_foldl_storeAdd_of_mem rest _ _ (mem_storeAdd_self qs q)
      · exact ih _ _ h

/-- C4: for a projection `p` declared for the object's type (with the
mapping keys distinct, as Python dict keys are), starting from a state with
nothing stored under the deterministic id
`uuid5(NAMESPACE_URL, obj.uri + "#" + p)`, after `add_object` a vector
record exists under that id exactly when the projection text — the
space-joined trimmed non-empty string values of the listed properties in
declared order, non-string values contributing nothing — is non-empty;
and the object's triples are written regardless. -/
theorem add_object_projection_record_iff
    (m : VectorMappings) (g : String) (s : KGraphState) (o : GraphObject)
    (p : String) (uris : List String)
    (hm : lookupFirst (get_vector_mappings_for_type m o.classUri) p = some uris)
    (hnd : ((get_vector_mappings_for_type m o.classUri).map Prod.fst).Nodup)
    (hfresh : lookupFirst s.vectors (RecordId.uuid5 (o.uri ++ "#" ++ p)) = none) :
    ((lookupFirst (add_object m g s o).vectors
        (RecordId.uuid5 (o.uri ++ "#" ++ p))).isSome = true
      ↔ projection_text o uris ≠ "")
    ∧ ∀ q ∈ object_quads o (some g), q ∈ (add_object m g s o).quads := by
  have hvec : (add_object m g s o).vectors
      = (add_vector_loop g [] (get_vector_mappings_for_type m o.classUri) o
          (get_vector_mappings_for_type m o.classUri) s.vectors).1 := by
    simp [add_object, add_object_run, add_vector_loop_nofail_ok]
  have hquads : (add_object m g s o).quads
      = (object_quads o (some g)).foldl storeAdd s.quads := by
    simp [add_object, add_object_run, add_graph_object_triples, add_vector_loop_nofail_ok]
  constructor
  · rw [hvec, add_vector_loop_lookup g _ o p uris _ s.vectors hm hnd]
    by_cases ht : projection_text o uris = "" <;> simp [ht, hfresh]
  · intro q hq
    rw [hquads]
    exact mem_foldl_storeAdd_self _ _ _ hq

/-- Witness for C4 at `exMappings`, `exApple`, projection `general`. -/
theorem add_object_projection_record_iff_witness :
    lookupFirst (get_vector_mappings_for_type exMappings exApple.classUri) "general"
      = some ["http://ex/hasName"]
    ∧ ((get_vector_mappings_for_type exMappings exApple.classUri).map Prod.fst).Nodup
    ∧ lookupFirst exInit.vectors
        (RecordId.uuid5 (exApple.uri ++ "#" ++ "general")) = none
    ∧ (((lookupFirst (add_object exMappings exGraphUri exInit exApple).vectors
          (RecordId.uuid5 (exApple.uri ++ "#" ++ "general"))).isSome = true
        ↔ projection_text exApple ["http://ex/hasName"] ≠ "")
      ∧ ∀ q ∈ object_quads exApple (some exGraphUri),
          q ∈ (add_object exMappings exGraphUri exInit exApple).quads) :=
  ⟨by decide, by decide, by decide,
   add_object_projection_record_iff exMappings exGraphUri exInit exApple "general"
     ["http://ex/hasName"] (by decide) (by decide) (by decide)⟩

/-- Two states with equal components are equal. -/
theorem kgstate_ext (a b : KGraphState) (h1 : a.quads = b.quads)
    (h2 : a.vectors = b.vectors) (h3 : a.registry = b.registry) : a = b := by
  cases a; cases b; simp_all

/-- Adding quads that are already present leaves the store unchanged. -/
theorem foldl_storeAdd_eq_of_subset :
    ∀ (l X : List Quad), (∀ q ∈ l, q ∈ X) → l.foldl storeAdd X = X := by
  intro l
  induction l with
  | nil => intro X _; rfl
  | cons a rest ih =>
      intro X h
      have ha : storeAdd X a = X := storeAdd_eq_of_mem X a (h a (List.mem_cons_self _ _))
      calc (a :: rest).foldl storeAdd X = rest.foldl storeAdd (storeAdd X a) := rfl
        _ = rest.foldl storeAdd X := by rw [ha]
        _ = X := ih X (fun q hq => h q (List.mem_cons_of_mem _ hq))

/-- Replaying the same add sequence is the identity: set semantics. -/
theorem foldl_storeAdd_idem (l qs : List Quad) :
    l.foldl storeAdd (l.foldl storeAdd qs) = l.foldl storeAdd qs :=
  foldl_storeAdd_eq_of_subset l _ (fun q hq => mem_foldl_storeAdd_self l qs q hq)

/-- Replaying the failure-free vector loop over its own output is the
identity, the mapping keys being distinct: every upsert rewrites the
deterministic id with the value it already holds. -/
theorem add_vector_loop_idem (g : String) (vm : List (String × List String))
    (o : GraphObject) :
    ∀ (entries : List (String × List String)),
    (entries.map Prod.fst).Nodup →
    ∀ (vecs : List (RecordId × VectorRecord)),
    (add_vector_loop g [] vm o entries (add_vector_loop g [] vm o entries vecs).1).1
      = (add_vector_loop g [] vm o entries vecs).1 := by
  intro entries
  induction entries with
  | nil => intro _ vecs; rfl
  | cons e rest ih =>
      intro hnd vecs
      obtain ⟨vid, us⟩ := e
      have hnd0 : (vid :: rest.map Prod.fst).Nodup := by simpa using hnd
      have hnd1 := List.nodup_cons.mp hnd0
      by_cases ht : projection_text o us = ""
      · simp only [add_vector_loop, ht, if_true]
        exact ih hnd1.2 vecs
      · have hrestne : ∀ e ∈ rest,
            RecordId.uuid5 (o.uri ++ "#" ++ e.1) ≠ RecordId.uuid5 (o.uri ++ "#" ++ vid) := by
          intro e he
          refine uuid5_key_ne o.uri vid e.1 ?_
          intro hh
          exact hnd1.1 (hh ▸ List.mem_map_of_mem Prod.fst he)
        have hlook : lookupFirst
            (add_vector_loop g [] vm o rest
              (dictInsert vecs (RecordId.uuid5 (o.uri ++ "#" ++ vid))
                { text := projection_text o us, payload := vector_payload vm g o vid us })).1
            (RecordId.uuid5 (o.uri ++ "#" ++ vid))
            = some { text := projection_text o us, payload := vector_payload vm g o vid us } := by
          rw [add_vector_loop_lookup_other g vm o _ rest _ hrestne,
            lookupFirst_dictInsert_self]
        rw [add_vector_loop]
        simp only [ht, if_false]
        simp only [List.not_mem_nil, if_false, if_neg (fun hh => hh)]
        rw [add_vector_loop]
        simp only [ht, if_false]
        simp only [List.not_mem_nil, if_false, if_neg (fun hh => hh)]
        rw [dictInsert_lookup_eq _ _ _ hlook]
        exact ih hnd1.2 _

/-- C5: with the mapping keys distinct (Python dict keys), re-running
`add_object` on an unchanged object reproduces the state exactly: the quads
are re-added under set semantics, the vector records are upserted at the
same deterministic ids with the same payloads, and the registry entry is
rewritten with the same type — a retried `addObject` converges. -/
theorem add_object_twice_eq_once
    (m : VectorMappings) (g : String) (s : KGraphState) (o : GraphObject)
    (hnd : ((get_vector_mappings_for_type m o.classUri).map Prod.fst).Nodup) :
    add_object m g (add_object m g s o) o = add_object m g s o := by
  have hq : ∀ t : KGraphState,
      (add_object m g t o).quads = (object_quads o (some g)).foldl storeAdd t.quads := by
    intro t
    simp [add_object, add_object_run, add_graph_object_triples, add_vector_loop_nofail_ok]
  have hv : ∀ t : KGraphState,
      (add_object m g t o).vectors
        = (add_vector_loop g [] (get_vector_mappings_for_type m o.classUri) o
            (get_vector_mappings_for_type m o.classUri) t.vectors).1 := by
    intro t
    simp [add_object, add_object_run, add_vector_loop_nofail_ok]
  have hr : ∀ t : KGraphState,
      (add_object m g t o).registry = dictInsert t.registry o.uri o.classUri := by
    intro t
    simp [add_object, add_object_run, add_vector_loop_nofail_ok]
  refine kgstate_ext _ _ ?_ ?_ ?_
  · rw [hq, hq]
    exact foldl_storeAdd_idem _ _
  · rw [hv, hv]
    exact add_vector_loop_idem g _ o _ hnd _
  · rw [hr, hr]
    exact dictInsert_dictInsert _ _ _ _

/-- Witness for C5 at `exMappings`, `exApple`. -/
theorem add_object_twice_eq_once_witness :
    ((get_vector_mappings_for_type exMappings exApple.classUri).map Prod.fst).Nodup
    ∧ add_object exMappings exGraphUri (add_object exMappings exGraphUri exInit exApple) exApple
      = add_object exMappings exGraphUri exInit exApple :=
  ⟨by decide,
   add_object_twice_eq_once exMappings exGraphUri exInit exApple (by decide)⟩
